import Mathlib

/-
Shallow embedding of the local process execution core
(src/rust/process_execution/src/local.rs) of the pants build engine.

Pure logic (string substitution, glob construction, parent-directory
synthesis, stream collection, script generation, the keep-sandbox decision
and the timeout race) is translated directly from the source.  Effectful
collaborators that live outside this file (the content-addressed store, the
filesystem, the external sandboxer) are passed in as explicit parameters:
fallible operations are `Except`-valued parameters, and filesystem
observations are boolean-valued functions.
-/

set_option autoImplicit false

namespace LocalExec

/-- Enum `KeepSandboxes` from the source: policy deciding whether a sandbox
directory is preserved after a run. -/
inductive KeepSandboxes where
  | Always
  | Never
  | OnFailure
  deriving DecidableEq, Repr

/-- Enum `ChildOutput` from the source: one event of the merged child stream. -/
inductive ChildOutput where
  | Stdout (bytes : List UInt8)
  | Stderr (bytes : List UInt8)
  | Exit (code : Int)
  deriving DecidableEq, Repr

/-- Model of `bytes::BytesMut`: a growable byte buffer.  Only the requested
initial capacity is tracked (growth beyond it is amortized and
unobservable); the contents are the byte list. -/
structure BytesMut where
  initialCapacity : Nat
  data : List UInt8
  deriving DecidableEq, Repr

/-- Models `BytesMut::with_capacity`. -/
def BytesMut.withCapacity (n : Nat) : BytesMut := ⟨n, []⟩

/-- Models `BytesMut::extend_from_slice`. -/
def BytesMut.extendFromSlice (b : BytesMut) (bs : List UInt8) : BytesMut :=
  ⟨b.initialCapacity, b.data ++ bs⟩

/-- Content-addressed digests are opaque to this core; `empty` is
`EMPTY_DIRECTORY_DIGEST` (also the digest of `Snapshot::empty()`), and
`node` stands for any other digest handed back by the store. -/
inductive Digest where
  | empty
  | node (id : Nat)
  deriving DecidableEq, Repr

/-- Rounds `num / den` to the nearest integer, ties to even: models the
rounding used when formatting a float with one fractional digit. -/
def roundTiesEven (num den : Nat) : Nat :=
  let q := num / den
  let r := num % den
  if 2 * r < den then q
  else if den < 2 * r then q + 1
  else if q % 2 = 0 then q else q + 1

/-- Models `Duration::as_secs_f32` (from milliseconds) rendered with the
`:.1` format specifier, i.e. seconds with one fractional digit. -/
def formatSecsTenths (millis : Nat) : String :=
  let tenths := roundTiesEven millis 100
  toString (tenths / 10) ++ "." ++ toString (tenths % 10)

/-- Error type `CapturedWorkdirError` from the source.  The timeout duration is kept in
milliseconds. -/
inductive CapturedWorkdirError where
  | Timeout (timeout : Nat) (description : String)
  | Retryable (message : String)
  | Fatal (message : String)
  deriving DecidableEq, Repr

/-- The `Display` implementation of `CapturedWorkdirError`. -/
def CapturedWorkdirError.display : CapturedWorkdirError → String
  | CapturedWorkdirError.Timeout t d =>
      "Exceeded timeout of " ++ formatSecsTenths t
        ++ " seconds when executing local process: " ++ d
  | CapturedWorkdirError.Retryable m => m ++ " (retryable error)"
  | CapturedWorkdirError.Fatal m => m

/-- Error type `ProcessError`: only the `Unclassified` variant is produced by this
core. -/
inductive ProcessError where
  | Unclassified (message : String)
  deriving DecidableEq, Repr

/-- The `Process` request.  Paths are strings; `env` models the `BTreeMap`
as an association list; `timeout` is in milliseconds;
`execution_environment_keep` is `execution_environment.local_keep_sandboxes`.
Fields not touched by any component modelled here (input digests, caches,
platform metadata) are omitted. -/
structure Process where
  argv : List String
  env : List (String × String)
  working_directory : Option String
  output_files : List String
  output_directories : List String
  timeout : Option Nat
  description : String
  execution_environment_keep : KeepSandboxes
  jdk_home : Option String
  deriving DecidableEq, Repr

/-- Result type `FallibleProcessResultWithPlatform` (metadata such as elapsed time and
run id is not modelled; no claim concerns it). -/
structure FallibleProcessResultWithPlatform where
  stdout_digest : Digest
  stderr_digest : Digest
  exit_code : Int
  output_directory : Digest
  deriving DecidableEq, Repr

/-- Type `fs::TypedPath`: an entry handed to `DigestTrie::from_unique_paths`. -/
inductive TypedPath where
  | File (path : String) (isExecutable : Bool)
  | Dir (path : String)
  | Link (path : String) (target : String)
  deriving DecidableEq, Repr

/-- Enum `fs::StrictGlobMatching` (only the variants this core mentions). -/
inductive StrictGlobMatching where
  | Ignore
  | Warn
  | Error
  deriving DecidableEq, Repr

/-- Enum `fs::GlobExpansionConjunction`. -/
inductive GlobExpansionConjunction where
  | AllMatch
  | AnyMatch
  deriving DecidableEq, Repr

/-- Enum `fs::SymlinkBehavior`. -/
inductive SymlinkBehavior where
  | Aware
  | Oblivious
  deriving DecidableEq, Repr

/- ### Path helpers (unix `std::path` semantics on normalized paths) -/

/-- Models `Path::is_absolute` on unix: the path has a root, i.e. starts with the
separator. -/
def isAbsolutePath (p : String) : Bool :=
  match p.toList with
  | [] => false
  | c :: _ => c == '/'

/-- Models `Path::join` on unix paths: an absolute right side replaces the left
side; otherwise the two are joined, adding a separator unless the left side
is empty or already ends with one. -/
def joinPath (a b : String) : String :=
  if isAbsolutePath b then b
  else if a = "" then b
  else if a.toList.getLast? = some '/' then a ++ b
  else a ++ "/" ++ b

/-- Models `Path::parent` on a normalized relative path string: `none` for the
empty path, otherwise the path with its last component removed (the empty
string for a single-component path). -/
def parentPath (p : String) : Option String :=
  if p = "" then none
  else some (String.mk (List.intercalate ['/'] ((p.toList.splitOn '/').dropLast)))

/- ### Byte-level helpers -/

/-- UTF-8 encoding of one character (models `str::as_bytes` per char). -/
def charUtf8 (c : Char) : List UInt8 :=
  let n := c.toNat
  if n < 0x80 then [UInt8.ofNat n]
  else if n < 0x800 then
    [UInt8.ofNat (0xC0 ||| (n >>> 6)), UInt8.ofNat (0x80 ||| (n &&& 0x3F))]
  else if n < 0x10000 then
    [UInt8.ofNat (0xE0 ||| (n >>> 12)), UInt8.ofNat (0x80 ||| ((n >>> 6) &&& 0x3F)),
     UInt8.ofNat (0x80 ||| (n &&& 0x3F))]
  else
    [UInt8.ofNat (0xF0 ||| (n >>> 18)), UInt8.ofNat (0x80 ||| ((n >>> 12) &&& 0x3F)),
     UInt8.ofNat (0x80 ||| ((n >>> 6) &&& 0x3F)), UInt8.ofNat (0x80 ||| (n &&& 0x3F))]

/-- UTF-8 bytes of a string (models `str::as_bytes`). -/
def utf8Bytes (s : String) : List UInt8 := s.toList.flatMap charUtf8

/- ### Substring search and replacement (models `str::contains` /
`str::replace` for a non-empty literal pattern) -/

/-- Models `str::contains` for a literal pattern, over character lists. -/
def containsSub (pat : List Char) : List Char → Bool
  | [] => pat.isEmpty
  | c :: rest => pat.isPrefixOf (c :: rest) || containsSub pat rest

/-- Models `str::replace` for a non-empty literal pattern: scan left to right and
replace each (non-overlapping) occurrence of `pat` by `rep`. -/
def replaceAll (pat rep : List Char) : List Char → List Char
  | [] => []
  | c :: rest =>
    if pat ≠ [] ∧ pat.isPrefixOf (c :: rest) then
      rep ++ replaceAll pat rep (rest.drop (pat.length - 1))
    else
      c :: replaceAll pat rep rest
termination_by s => s.length
decreasing_by
  · simp only [List.length_drop, List.length_cons]; omega
  · simp only [List.length_cons]; omega

/-- Declarative description of left-to-right, non-overlapping replacement
of every literal occurrence of `pat` by `rep`: `Replaced pat rep s r` holds
when `r` is `s` with every occurrence of `pat` replaced by `rep`. -/
inductive Replaced (pat rep : List Char) : List Char → List Char → Prop where
  | nil : Replaced pat rep [] []
  | noMatch (c : Char) (s r : List Char) :
      ¬ (pat.isPrefixOf (c :: s) = true) → Replaced pat rep s r →
      Replaced pat rep (c :: s) (c :: r)
  | matched (s r : List Char) :
      Replaced pat rep s r → Replaced pat rep (pat ++ s) (rep ++ r)

/-- The `{chroot}` placeholder pattern. -/
def chrootPat : List Char := "{chroot}".toList

/-- One value update of `apply_chroot`: replace `{chroot}` by the sandbox
path if the value contains it (the `contains` guard mirrors the source). -/
def stringReplaceChroot (chroot_path : String) (s : String) : String :=
  if containsSub chrootPat s.toList then
    String.mk (replaceAll chrootPat chroot_path.toList s.toList)
  else s

/-- Function `apply_chroot`: replaces `{chroot}` placeholders in every env value and
every argv element with the sandbox path. -/
def apply_chroot (chroot_path : String) (req : Process) : Process :=
  { req with
    env := req.env.map (fun kv => (kv.1, stringReplaceChroot chroot_path kv.2)),
    argv := req.argv.map (stringReplaceChroot chroot_path) }

/- ### Stream collection -/

/-- The loop body of `collect_child_outputs`: drain the stream into the two
buffers and the exit-code slot, short-circuiting on a stream error. -/
def collect_loop (stdout stderr : BytesMut) (exit_code : Int) :
    List (Except String ChildOutput) → Except String Int × BytesMut × BytesMut
  | [] => (Except.ok exit_code, stdout, stderr)
  | Except.error e :: _ => (Except.error e, stdout, stderr)
  | Except.ok (ChildOutput.Stdout bs) :: rest =>
      collect_loop (stdout.extendFromSlice bs) stderr exit_code rest
  | Except.ok (ChildOutput.Stderr bs) :: rest =>
      collect_loop stdout (stderr.extendFromSlice bs) exit_code rest
  | Except.ok (ChildOutput.Exit c) :: rest =>
      collect_loop stdout stderr c rest

/-- Function `collect_child_outputs`: the exit-code slot starts at the default 1. -/
def collect_child_outputs (stdout stderr : BytesMut)
    (stream : List (Except String ChildOutput)) :
    Except String Int × BytesMut × BytesMut :=
  collect_loop stdout stderr 1 stream

/-- The bytes a partially drained stream has contributed to the two buffers
when the timer interrupts the drain (no error item can have been consumed,
since an error completes the drain). -/
def foldChunks (stdout stderr : BytesMut) : List ChildOutput → BytesMut × BytesMut
  | [] => (stdout, stderr)
  | ChildOutput.Stdout bs :: rest => foldChunks (stdout.extendFromSlice bs) stderr rest
  | ChildOutput.Stderr bs :: rest => foldChunks stdout (stderr.extendFromSlice bs) rest
  | ChildOutput.Exit _ :: rest => foldChunks stdout stderr rest

/-- The stdout bytes carried by a list of child-output events. -/
def stdoutBytes : List ChildOutput → List UInt8
  | [] => []
  | ChildOutput.Stdout bs :: rest => bs ++ stdoutBytes rest
  | ChildOutput.Stderr _ :: rest => stdoutBytes rest
  | ChildOutput.Exit _ :: rest => stdoutBytes rest

/-- The stderr bytes carried by a list of child-output events. -/
def stderrBytes : List ChildOutput → List UInt8
  | [] => []
  | ChildOutput.Stdout _ :: rest => stderrBytes rest
  | ChildOutput.Stderr bs :: rest => bs ++ stderrBytes rest
  | ChildOutput.Exit _ :: rest => stderrBytes rest

/-- The exit code of an `Exit` event, if any. -/
def exitOf (item : ChildOutput) : Option Int :=
  match item with
  | ChildOutput.Exit c => some c
  | _ => none

/-- The code of the last `Exit` event in a stream, if any. -/
def lastExitCode (items : List ChildOutput) : Option Int :=
  (items.filterMap exitOf).getLast?

/- ### Output snapshot construction -/

/-- The glob pair emitted for one output directory in
`construct_output_snapshot`: the empty directory path is replaced by `.`
before the `/**` variant is derived. -/
def dirGlobs (p : String) : List String :=
  let dir := if p = "" then "." else p
  [dir, dir ++ "/**"]

/-- The glob list built by `construct_output_snapshot`: directory globs
first, then the output files verbatim. -/
def output_globs (output_file_paths output_dir_paths : List String) : List String :=
  output_dir_paths.flatMap dirGlobs ++ output_file_paths

/-- A parsed `PathGlobs` request. -/
structure PathGlobsRequest where
  globs : List String
  strict : StrictGlobMatching
  conjunction : GlobExpansionConjunction
  deriving DecidableEq, Repr

/-- The glob-expansion call made by `construct_output_snapshot`: the glob
request plus the symlink behavior passed to `expand_globs`. -/
structure GlobExpansionCall where
  request : PathGlobsRequest
  symlinkBehavior : SymlinkBehavior
  deriving DecidableEq, Repr

/-- The glob set and matching policy with which `construct_output_snapshot`
expands the declared outputs (the subsequent store ingestion is external to
this core). -/
def construct_output_snapshot_call
    (output_file_paths output_dir_paths : List String) : GlobExpansionCall :=
  { request :=
      { globs := output_globs output_file_paths output_dir_paths,
        strict := StrictGlobMatching.Ignore,
        conjunction := GlobExpansionConjunction.AllMatch },
    symlinkBehavior := SymlinkBehavior.Aware }

/- ### Workdir digest assembly -/

/-- The set of non-empty parent directories of the declared output paths,
as computed in `prepare_workdir_digest` (the `HashSet` is modelled as a
deduplicated list; membership is what matters). -/
def parent_paths_to_create (req : Process) : List String :=
  (((req.output_files ++ req.output_directories).filterMap parentPath).filter
    (fun parent => parent ≠ "")).dedup

/-- The synthesized entries `prepare_workdir_digest` hands to
`DigestTrie::from_unique_paths`: the resolved immutable-input and
named-cache symlinks (passed in, since their resolution is external), the
`.jdk` symlink when requested, and an empty directory per distinct
non-empty output parent.  The final merge with the input digest happens in
the external store. -/
def prepare_workdir_digest_paths (req : Process)
    (workdir_symlinks : List (String × String)) : List TypedPath :=
  (workdir_symlinks.map fun s => TypedPath.Link s.1 s.2)
    ++ (match req.jdk_home with
        | some jdk_home => [TypedPath.Link ".jdk" jdk_home]
        | none => [])
    ++ (parent_paths_to_create req).map TypedPath.Dir

/- ### Workdir preparation -/

/-- Function `prepare_workdir`.  Digest assembly and materialization are performed by
the external store/sandboxer and enter as `materializeResult`; `pathExists`
is the post-materialization `tokio::fs::metadata(..).is_ok()` observation.
The returned flag becomes `exclusive_spawn`.  (The source indexes
`argv[0]`, so callers must pass a non-empty `argv`.) -/
def prepare_workdir (workdir_path : String) (req : Process)
    (materializeResult : Except CapturedWorkdirError Unit)
    (pathExists : String → Bool) : Except CapturedWorkdirError Bool :=
  let argv0 := req.argv.headD ""
  let maybe_executable_path : Option String :=
    if isAbsolutePath argv0 then none
    else
      match req.working_directory with
      | some working_directory => some (joinPath workdir_path (joinPath working_directory argv0))
      | none => some (joinPath workdir_path argv0)
  match materializeResult with
  | Except.error e => Except.error e
  | Except.ok _ =>
    match maybe_executable_path with
    | some executable_path => Except.ok (pathExists executable_path)
    | none => Except.ok false

/- ### run_and_capture_workdir -/

/-- The signal number of SIGTERM. -/
def SIGTERM : Int := 15

/-- The two fresh 8 KiB buffers `run_and_capture_workdir` drains the child
stream into. -/
def captureBuffers : BytesMut × BytesMut :=
  (BytesMut.withCapacity 8192, BytesMut.withCapacity 8192)

/-- The text appended to the stderr buffer when the timer wins the race. -/
def timeoutSuffix (t : Nat) (d : String) : String :=
  "\n\n" ++ CapturedWorkdirError.display (CapturedWorkdirError.Timeout t d)

/-- Outcome of the child-stream drain as seen by `run_and_capture_workdir`:
either the drain future resolved (with the items the stream yielded), or a
configured timer fired first, after `consumed` items had been drained. -/
inductive DrainOutcome where
  | completed (items : List (Except String ChildOutput))
  | timedOut (consumed : List ChildOutput)
  deriving Repr

/-- The spawn-and-drain phase of `run_and_capture_workdir`, including the
race against the request timeout: it yields the exit-code result and the
two buffers.  With a timeout set, the `match` in the source maps everything
except `Ok(Ok(code))` — both the timer firing and a drain that resolved
with a stream error — to a `Timeout` error. -/
def drainPhase (req : Process) (drain : DrainOutcome) :
    Except CapturedWorkdirError Int × BytesMut × BytesMut :=
  match req.timeout, drain with
  | some t, DrainOutcome.completed items =>
    (match collect_child_outputs captureBuffers.1 captureBuffers.2 items with
     | (Except.ok code, so, se) => (Except.ok code, so, se)
     | (Except.error _, so, se) =>
        (Except.error (CapturedWorkdirError.Timeout t req.description), so, se))
  | none, DrainOutcome.completed items =>
    (match collect_child_outputs captureBuffers.1 captureBuffers.2 items with
     | (Except.ok code, so, se) => (Except.ok code, so, se)
     | (Except.error msg, so, se) => (Except.error (CapturedWorkdirError.Fatal msg), so, se))
  | some t, DrainOutcome.timedOut consumed =>
    (Except.error (CapturedWorkdirError.Timeout t req.description),
     (foldChunks captureBuffers.1 captureBuffers.2 consumed).1,
     (foldChunks captureBuffers.1 captureBuffers.2 consumed).2)
  | none, DrainOutcome.timedOut consumed =>
    -- A timer cannot fire when no timeout is configured; this unreachable
    -- combination is modelled as a completed drain of the consumed items.
    (match collect_child_outputs captureBuffers.1 captureBuffers.2 (consumed.map Except.ok) with
     | (Except.ok code, so, se) => (Except.ok code, so, se)
     | (Except.error msg, so, se) => (Except.error (CapturedWorkdirError.Fatal msg), so, se))

/-- Effects of one `run_and_capture_workdir` call that are observable only
through the external collaborators: whether a fresh `PosixFS` view was
constructed and the output globs expanded over it. -/
structure CaptureEffects where
  snapshotPerformed : Bool
  deriving DecidableEq, Repr

/-- The tail of `run_and_capture_workdir`: store the stdout and stderr
buffers (`try_join!`ed in the source; on a double failure the first
error of the first component is reported) and assemble the fallible result. -/
def storeAndFinish (storeFile : List UInt8 → Except String Digest)
    (stdout stderr : BytesMut) (exit_code : Int) (output_directory : Digest) :
    Except CapturedWorkdirError FallibleProcessResultWithPlatform :=
  match storeFile stdout.data, storeFile stderr.data with
  | Except.ok stdout_digest, Except.ok stderr_digest =>
      Except.ok
        { stdout_digest := stdout_digest, stderr_digest := stderr_digest,
          exit_code := exit_code, output_directory := output_directory }
  | Except.error m, _ => Except.error (CapturedWorkdirError.Fatal m)
  | _, Except.error m => Except.error (CapturedWorkdirError.Fatal m)

/-- Function `run_and_capture_workdir`.  External effects enter as parameters:
`drain` is the outcome of the drain-versus-timer race, `snapshotResult` is
what `PosixFS` construction plus `construct_output_snapshot` would return
when output capture is performed, and `storeFile` is
`store.store_file_bytes`.  Here `prepare_workdir_for_capture` uses the
default implementation (`Ok(())`) for the local runner.  Note the order of
phases, as in the source: the output snapshot is built (or skipped when no
outputs are declared) before the exit-code result is examined, so a
snapshot failure surfaces even when the run timed out, and on a timeout a
constructed snapshot is discarded in favor of the empty digest. -/
def run_and_capture_workdir (req : Process) (drain : DrainOutcome)
    (snapshotResult : Except String Digest)
    (storeFile : List UInt8 → Except String Digest) :
    Except CapturedWorkdirError FallibleProcessResultWithPlatform × CaptureEffects :=
  let dp := drainPhase req drain
  let outputsEmpty := req.output_files.isEmpty && req.output_directories.isEmpty
  let snapshotStep := if outputsEmpty then Except.ok Digest.empty else snapshotResult
  let fx : CaptureEffects := ⟨!outputsEmpty⟩
  match snapshotStep with
  | Except.error msg => (Except.error (CapturedWorkdirError.Fatal msg), fx)
  | Except.ok output_snapshot =>
    match dp.1 with
    | Except.ok exit_code =>
        (storeAndFinish storeFile dp.2.1 dp.2.2 exit_code output_snapshot, fx)
    | Except.error (CapturedWorkdirError.Timeout t d) =>
        (storeAndFinish storeFile dp.2.1
          (dp.2.2.extendFromSlice (utf8Bytes (timeoutSuffix t d))) (-SIGTERM) Digest.empty, fx)
    | Except.error e => (Except.error e, fx)

/- ### The runner orchestrator -/

/-- The message of the `Unclassified` error produced when
`run_and_capture_workdir` fails: it embeds the debug dump of the request. -/
def failedToExecuteMessage (req : Process) (cwe : CapturedWorkdirError) : String :=
  "Failed to execute: " ++ reprStr req ++ "\n\n" ++ cwe.display

/-- Sandbox-lifecycle effects of one `run` call. -/
structure RunEffects where
  sandboxCreated : Bool
  keptMarked : Bool
  runShWritten : Bool
  deriving DecidableEq, Repr

/-- Models `res.as_ref().map(|r| r.exit_code).unwrap_or(1)` from the keep-sandbox
condition in `run`. -/
def exitCodeOrDefault (res : Except ProcessError FallibleProcessResultWithPlatform) : Int :=
  match res with
  | Except.ok r => r.exit_code
  | Except.error _ => 1

/-- The result of the run-and-capture phase as `run` reports it: an
infrastructure failure is mapped to an `Unclassified` error embedding the
debug dump of the request. -/
def captureToRes (req : Process) (drain : DrainOutcome)
    (snapshotResult : Except String Digest)
    (storeFile : List UInt8 → Except String Digest) :
    Except ProcessError FallibleProcessResultWithPlatform :=
  match (run_and_capture_workdir req drain snapshotResult storeFile).1 with
  | Except.ok r => Except.ok r
  | Except.error cwe =>
      Except.error (ProcessError.Unclassified (failedToExecuteMessage req cwe))

/-- The orchestrating `run`: create the sandbox (kept immediately when the
policy is `Always`), apply the chroot substitution, prepare the workdir,
run and capture, then decide whether to keep the sandbox and write
`__run.sh`.  An error from sandbox creation or workdir preparation
early-returns past the keep block, so only the `Always` mark made at
creation survives such failures.  The `__run.sh` write itself is modelled
as succeeding. -/
def localRun (req : Process)
    (createSandboxResult : Except String Unit)
    (prepareResult : Except CapturedWorkdirError Bool)
    (drain : DrainOutcome)
    (snapshotResult : Except String Digest)
    (storeFile : List UInt8 → Except String Digest) :
    Except ProcessError FallibleProcessResultWithPlatform × RunEffects :=
  match createSandboxResult with
  | Except.error e => (Except.error (ProcessError.Unclassified e), ⟨false, false, false⟩)
  | Except.ok _ =>
    match prepareResult with
    | Except.error e =>
        (Except.error (ProcessError.Unclassified (CapturedWorkdirError.display e)),
         ⟨true, req.execution_environment_keep = KeepSandboxes.Always, false⟩)
    | Except.ok _exclusive_spawn =>
      let res := captureToRes req drain snapshotResult storeFile
      if req.execution_environment_keep = KeepSandboxes.Always
          ∨ (req.execution_environment_keep = KeepSandboxes.OnFailure
             ∧ exitCodeOrDefault res ≠ 0) then
        (res, ⟨true, true, true⟩)
      else
        (res, ⟨true, req.execution_environment_keep = KeepSandboxes.Always, false⟩)

/- ### The __run.sh replay script -/

/-- Models `Vec::join(" ")`. -/
def joinSpace : List String → String
  | [] => ""
  | [s] => s
  | s :: rest => s ++ " " ++ joinSpace rest

/-- The content of the `__run.sh` script written by `setup_run_sh_script`.
The external `shell_quote::Bash` quoting enters as the `quote` parameter;
it is applied to each env value, each argv element and the cwd, while env
keys are formatted verbatim as `KEY=<quoted value>`. -/
def setup_run_sh_script (quote : String → String)
    (env : List (String × String)) (working_directory : Option String)
    (argv : List String) (workdir_path : String) : String :=
  let env_var_strings := env.map fun kv => kv.1 ++ "=" ++ quote kv.2
  let stringified_env_vars := joinSpace env_var_strings
  let full_command_line := argv.map quote
  let cwd :=
    match working_directory with
    | some working_directory => joinPath workdir_path working_directory
    | none => workdir_path
  let stringified_cwd := quote cwd
  let stringified_command_line := joinSpace full_command_line
  "#!/usr/bin/env bash\n"
    ++ "# This command line should execute the same process as pants did internally.\n"
    ++ "cd " ++ stringified_cwd ++ "\n"
    ++ "env -i " ++ stringified_env_vars ++ " " ++ stringified_command_line ++ "\n"

/- ### Lemmas about replacement -/

theorem isPrefixOf_append_self (pat t : List Char) : pat.isPrefixOf (pat ++ t) = true := by
  induction pat with
  | nil => simp [List.isPrefixOf]
  | cons c cs ih => simp [List.isPrefixOf, ih]

theorem replaced_replaceAll_aux (pat rep : List Char) (hpat : pat ≠ []) :
    ∀ (n : Nat) (s : List Char), s.length ≤ n → Replaced pat rep s (replaceAll pat rep s) := by
  intro n
  induction n with
  | zero =>
    intro s hs
    have hnil : s = [] := List.length_eq_zero.mp (Nat.le_zero.mp hs)
    subst hnil
    rw [replaceAll]
    exact Replaced.nil
  | succ n ih =>
    intro s hs
    match s with
    | [] =>
      rw [replaceAll]
      exact Replaced.nil
    | c :: rest =>
      rw [replaceAll]
      by_cases h : pat ≠ [] ∧ pat.isPrefixOf (c :: rest)
      · rw [if_pos h]
        obtain ⟨t, ht⟩ := List.isPrefixOf_iff_prefix.mp h.2
        have hdrop : rest.drop (pat.length - 1) = t := by
          have hd := congrArg (List.drop pat.length) ht
          rw [List.drop_left] at hd
          match pat, hpat with
          | p :: ps, _ =>
            simpa [List.length_cons] using hd.symm
        have hlen : t.length ≤ n := by
          have hl := congrArg List.length ht
          simp only [List.length_append, List.length_cons] at hl
          have hp1 : 1 ≤ pat.length := by
            match pat, hpat with
            | p :: ps, _ => simp [List.length_cons]
          simp only [List.length_cons] at hs
          omega
        rw [hdrop, ← ht]
        exact Replaced.matched t _ (ih t hlen)
      · rw [if_neg h]
        have hnp : ¬ (pat.isPrefixOf (c :: rest) = true) := fun hp => h ⟨hpat, hp⟩
        have hlen : rest.length ≤ n := by
          simp only [List.length_cons] at hs
          omega
        exact Replaced.noMatch c rest _ hnp (ih rest hlen)

theorem replaced_replaceAll (pat rep s : List Char) (hpat : pat ≠ []) :
    Replaced pat rep s (replaceAll pat rep s) :=
  replaced_replaceAll_aux pat rep hpat s.length s (Nat.le_refl _)

theorem replaced_of_not_contains (pat rep s : List Char)
    (h : containsSub pat s = false) : Replaced pat rep s s := by
  induction s with
  | nil => exact Replaced.nil
  | cons c rest ih =>
    rw [containsSub] at h
    simp only [Bool.or_eq_false_iff] at h
    exact Replaced.noMatch c rest rest (by simp [h.1]) (ih h.2)

theorem replaced_stringReplaceChroot (P s : String) :
    Replaced chrootPat P.toList s.toList (stringReplaceChroot P s).toList := by
  unfold stringReplaceChroot
  by_cases h : containsSub chrootPat s.toList = true
  · rw [if_pos h]
    have hmk : (String.mk (replaceAll chrootPat P.toList s.toList)).toList
        = replaceAll chrootPat P.toList s.toList := rfl
    rw [hmk]
    exact replaced_replaceAll _ _ _ (by decide)
  · rw [if_neg h]
    exact replaced_of_not_contains _ _ _ (by simpa using h)

theorem forall₂_map_self {α β : Type _} (R : α → β → Prop) (f : α → β) (l : List α)
    (h : ∀ a, R a (f a)) : List.Forall₂ R l (l.map f) := by
  induction l with
  | nil => exact List.Forall₂.nil
  | cons x rest ih => exact List.Forall₂.cons (h x) ih

/-- Claim C3: for every `Process` and sandbox path string `P`,
`apply_chroot` replaces every literal occurrence of `{chroot}` in each env
value and each argv element with `P` (left-to-right, non-overlapping, as
captured by the `Replaced` relation), keeps every env key unchanged, and
performs no substitution in `working_directory`. -/
theorem apply_chroot_substitution (P : String) (req : Process) :
    List.Forall₂
      (fun kv kv' => kv.1 = kv'.1 ∧ Replaced chrootPat P.toList kv.2.toList kv'.2.toList)
      req.env (apply_chroot P req).env
  ∧ List.Forall₂ (fun a a' => Replaced chrootPat P.toList a.toList a'.toList)
      req.argv (apply_chroot P req).argv
  ∧ (apply_chroot P req).working_directory = req.working_directory := by
  refine ⟨?_, ?_, rfl⟩
  · exact forall₂_map_self _ _ req.env (fun kv => ⟨rfl, replaced_stringReplaceChroot P kv.2⟩)
  · exact forall₂_map_self _ _ req.argv (fun a => replaced_stringReplaceChroot P a)

/- ### Lemmas about stream collection -/

@[simp] theorem extendFromSlice_nil (b : BytesMut) : b.extendFromSlice [] = b := by
  simp [BytesMut.extendFromSlice]

theorem extendFromSlice_append (b : BytesMut) (x y : List UInt8) :
    (b.extendFromSlice x).extendFromSlice y = b.extendFromSlice (x ++ y) := by
  simp [BytesMut.extendFromSlice, List.append_assoc]

theorem getLast?_getD_cons {α : Type _} (l : List α) :
    ∀ (c d : α), ((c :: l).getLast?).getD d = (l.getLast?).getD c := by
  induction l with
  | nil => intro c d; rfl
  | cons y ys ih =>
    intro c d
    rw [List.getLast?_cons_cons, ih y d, ih y c]

theorem lastExitCode_stdout (bs : List UInt8) (rest : List ChildOutput) :
    lastExitCode (ChildOutput.Stdout bs :: rest) = lastExitCode rest := by
  simp [lastExitCode, exitOf, List.filterMap_cons]

theorem lastExitCode_stderr (bs : List UInt8) (rest : List ChildOutput) :
    lastExitCode (ChildOutput.Stderr bs :: rest) = lastExitCode rest := by
  simp [lastExitCode, exitOf, List.filterMap_cons]

theorem lastExitCode_exit_getD (c : Int) (rest : List ChildOutput) (code : Int) :
    (lastExitCode (ChildOutput.Exit c :: rest)).getD code = (lastExitCode rest).getD c := by
  simp only [lastExitCode, exitOf, List.filterMap_cons]
  exact getLast?_getD_cons _ c code

theorem collect_loop_map_ok (items : List ChildOutput) :
    ∀ (b1 b2 : BytesMut) (code : Int),
      collect_loop b1 b2 code (items.map Except.ok)
        = (Except.ok ((lastExitCode items).getD code),
           b1.extendFromSlice (stdoutBytes items),
           b2.extendFromSlice (stderrBytes items)) := by
  induction items with
  | nil =>
    intro b1 b2 code
    simp [collect_loop, lastExitCode, stdoutBytes, stderrBytes]
  | cons item rest ih =>
    intro b1 b2 code
    cases item with
    | Stdout bs =>
      rw [List.map_cons, collect_loop, ih, lastExitCode_stdout, stdoutBytes, stderrBytes,
        extendFromSlice_append]
    | Stderr bs =>
      rw [List.map_cons, collect_loop, ih, lastExitCode_stderr, stdoutBytes, stderrBytes,
        extendFromSlice_append]
    | Exit c =>
      rw [List.map_cons, collect_loop, ih, stdoutBytes, stderrBytes, lastExitCode_exit_getD]

/-- Claim C6: for every finite stream of child-output events (no stream
errors), `collect_child_outputs` appends each `Stdout` chunk to the stdout
buffer and each `Stderr` chunk to the stderr buffer in stream order,
returns the code of the last `Exit` event, defaulting to 1 when there is
none, and the buffers `run_and_capture_workdir` creates for it have initial
capacity 8192 bytes each. -/
theorem collect_child_outputs_spec (items : List ChildOutput) (b1 b2 : BytesMut) :
    collect_child_outputs b1 b2 (items.map Except.ok)
        = (Except.ok ((lastExitCode items).getD 1),
           b1.extendFromSlice (stdoutBytes items),
           b2.extendFromSlice (stderrBytes items))
  ∧ captureBuffers.1.initialCapacity = 8192 ∧ captureBuffers.2.initialCapacity = 8192
  ∧ captureBuffers.1.data = [] ∧ captureBuffers.2.data = [] :=
  ⟨collect_loop_map_ok items b1 b2 1, rfl, rfl, rfl, rfl⟩

theorem collect_loop_error (pre : List ChildOutput) (e : String)
    (tail : List (Except String ChildOutput)) :
    ∀ (b1 b2 : BytesMut) (code : Int),
      collect_loop b1 b2 code (pre.map Except.ok ++ Except.error e :: tail)
        = (Except.error e, b1.extendFromSlice (stdoutBytes pre),
           b2.extendFromSlice (stderrBytes pre)) := by
  induction pre with
  | nil =>
    intro b1 b2 code
    simp [collect_loop, stdoutBytes, stderrBytes]
  | cons item rest ih =>
    intro b1 b2 code
    cases item with
    | Stdout bs =>
      rw [List.map_cons, List.cons_append, collect_loop, ih, stdoutBytes, stderrBytes,
        extendFromSlice_append]
    | Stderr bs =>
      rw [List.map_cons, List.cons_append, collect_loop, ih, stdoutBytes, stderrBytes,
        extendFromSlice_append]
    | Exit c =>
      rw [List.map_cons, List.cons_append, collect_loop, ih, stdoutBytes, stderrBytes]

/-- Claim C10: if the merged stream yields an error after an error-free
item list `pre`, `collect_child_outputs` returns that error, the result
does not depend on any later stream items, and at that point the two
buffers hold exactly the bytes of the `Stdout` and `Stderr` chunks of
`pre`. -/
theorem collect_child_outputs_error_spec (pre : List ChildOutput) (e : String)
    (tail : List (Except String ChildOutput)) (b1 b2 : BytesMut) :
    collect_child_outputs b1 b2 (pre.map Except.ok ++ Except.error e :: tail)
      = (Except.error e, b1.extendFromSlice (stdoutBytes pre),
         b2.extendFromSlice (stderrBytes pre)) :=
  collect_loop_error pre e tail b1 b2 1

/- ### Output glob construction (C7) -/

/-- The glob set as the claim words it: for each output directory `d`,
exactly the two globs `d` and `d/**`; for each output file `f`, exactly the
glob `f`. -/
def claim_output_globs (output_file_paths output_dir_paths : List String) : List String :=
  output_dir_paths.flatMap (fun d => [d, d ++ "/**"]) ++ output_file_paths

/-- The glob set as the claim words it, amended by the one change the code
forces: an empty output-directory path is replaced by `.` before its glob
pair is derived. -/
def claim_output_globs_amended (output_file_paths output_dir_paths : List String) :
    List String :=
  output_dir_paths.flatMap
    (fun d => [if d = "" then "." else d, (if d = "" then "." else d) ++ "/**"])
    ++ output_file_paths

/-- Claim C7, counterexample: for the declared (valid, empty-string) output
directory the code emits the globs `.` and `./**`, not the globs the claim
states. -/
theorem construct_output_snapshot_globs_counterexample :
    (construct_output_snapshot_call [] [""]).request.globs = [".", "./**"]
  ∧ claim_output_globs [] [""] = ["", "/**"]
  ∧ (construct_output_snapshot_call [] [""]).request.globs ≠ claim_output_globs [] [""] := by
  refine ⟨rfl, rfl, ?_⟩
  decide

theorem length_flatMap_dirGlobs (dirs : List String) :
    (dirs.flatMap dirGlobs).length = 2 * dirs.length := by
  induction dirs with
  | nil => rfl
  | cons d rest ih =>
    have h2 : (dirGlobs d).length = 2 := rfl
    rw [List.flatMap_cons, List.length_append, ih, h2, List.length_cons]
    omega

/-- Claim C7 (amended): the output snapshotter builds its glob set by
emitting, for each output directory `d`, exactly the two globs `d'` and
`d'/**` where `d'` is `d`, or `.` when `d` is empty, and for each output
file `f` exactly the glob `f`; it expands them with strict matching
disabled (`Ignore`), all-match conjunction, and symlink-aware behavior. -/
theorem construct_output_snapshot_globs_spec (files dirs : List String) :
    (construct_output_snapshot_call files dirs).request.globs
        = claim_output_globs_amended files dirs
  ∧ (construct_output_snapshot_call files dirs).request.globs.length
        = 2 * dirs.length + files.length
  ∧ (construct_output_snapshot_call files dirs).request.strict = StrictGlobMatching.Ignore
  ∧ (construct_output_snapshot_call files dirs).request.conjunction
        = GlobExpansionConjunction.AllMatch
  ∧ (construct_output_snapshot_call files dirs).symlinkBehavior = SymlinkBehavior.Aware := by
  refine ⟨rfl, ?_, rfl, rfl, rfl⟩
  show (output_globs files dirs).length = 2 * dirs.length + files.length
  rw [output_globs, List.length_append, length_flatMap_dirGlobs]

/- ### Parent directories in the workdir digest (C8) -/

theorem mem_parent_paths_to_create (req : Process) (d : String) :
    d ∈ parent_paths_to_create req
      ↔ d ≠ "" ∧ ∃ p ∈ req.output_files ++ req.output_directories, parentPath p = some d := by
  rw [parent_paths_to_create, List.mem_dedup, List.mem_filter, List.mem_filterMap]
  simp only [decide_eq_true_eq]
  constructor
  · rintro ⟨⟨p, hp, hpar⟩, hne⟩
    exact ⟨hne, p, hp, hpar⟩
  · rintro ⟨hne, p, hp, hpar⟩
    exact ⟨⟨p, hp, hpar⟩, hne⟩

/-- Claim C8: the path set assembled by `prepare_workdir_digest` contains
an empty directory entry exactly for each distinct non-empty parent
directory of a declared output file or output directory, so an output path
whose parent component is empty contributes no synthesized directory; the
synthesized parents are distinct. -/
theorem prepare_workdir_digest_parent_dirs (req : Process)
    (workdir_symlinks : List (String × String)) (d : String) :
    (TypedPath.Dir d ∈ prepare_workdir_digest_paths req workdir_symlinks
      ↔ d ≠ "" ∧ ∃ p ∈ req.output_files ++ req.output_directories, parentPath p = some d)
  ∧ TypedPath.Dir "" ∉ prepare_workdir_digest_paths req workdir_symlinks
  ∧ (parent_paths_to_create req).Nodup := by
  have hmem : ∀ e, TypedPath.Dir e ∈ prepare_workdir_digest_paths req workdir_symlinks
      ↔ e ∈ parent_paths_to_create req := by
    intro e
    rw [prepare_workdir_digest_paths]
    simp only [List.mem_append, List.mem_map]
    constructor
    · rintro ((⟨s, _, hs⟩ | hjdk) | ⟨x, hx, hxe⟩)
      · exact absurd hs (by simp)
      · cases hj : req.jdk_home with
        | none => rw [hj] at hjdk; simp at hjdk
        | some j => rw [hj] at hjdk; simp at hjdk
      · cases hxe
        exact hx
    · intro he
      exact Or.inr ⟨e, he, rfl⟩
  refine ⟨?_, ?_, List.nodup_dedup _⟩
  · rw [hmem, mem_parent_paths_to_create]
  · rw [hmem, mem_parent_paths_to_create]
    rintro ⟨hne, -⟩
    exact hne rfl

/-- Claim C8, witness: the single output file `a/b.txt` synthesizes the
empty parent directory `a`, while the root-level output file `c.txt`
synthesizes nothing. -/
theorem prepare_workdir_digest_parent_dirs_witness :
    TypedPath.Dir "a" ∈ prepare_workdir_digest_paths
      { argv := ["/bin/tool"], env := [], working_directory := none,
        output_files := ["a/b.txt", "c.txt"], output_directories := [],
        timeout := none, description := "demo",
        execution_environment_keep := KeepSandboxes.Never, jdk_home := none } [] :=
  (prepare_workdir_digest_parent_dirs
      { argv := ["/bin/tool"], env := [], working_directory := none,
        output_files := ["a/b.txt", "c.txt"], output_directories := [],
        timeout := none, description := "demo",
        execution_environment_keep := KeepSandboxes.Never, jdk_home := none } [] "a").1.mpr
    ⟨by decide, "a/b.txt", by simp, by decide⟩

/- ### Workdir preparation and exclusive_spawn (C2) -/

/-- Claim C2: under a successful materialization, `prepare_workdir` returns
`true` if and only if `argv[0]` is a relative path that, joined under
`working_directory` (when set) and the sandbox root, exists in the
materialized sandbox (the source observes existence via
`tokio::fs::metadata(..).is_ok()`); for every absolute `argv[0]` it returns
`false` regardless of what exists. -/
theorem prepare_workdir_exclusive_spawn (workdir_path : String) (req : Process)
    (pathExists : String → Bool) (_hargv : req.argv ≠ []) :
    (prepare_workdir workdir_path req (Except.ok ()) pathExists = Except.ok true
      ↔ isAbsolutePath (req.argv.headD "") = false
        ∧ pathExists (joinPath workdir_path
            (match req.working_directory with
             | some working_directory => joinPath working_directory (req.argv.headD "")
             | none => req.argv.headD "")) = true)
  ∧ (isAbsolutePath (req.argv.headD "") = true →
      prepare_workdir workdir_path req (Except.ok ()) pathExists = Except.ok false) := by
  unfold prepare_workdir
  cases habs : isAbsolutePath (req.argv.headD "") with
  | true =>
    simp only [habs]
    simp
  | false =>
    cases hwd : req.working_directory with
    | none =>
      simp only [habs, hwd]
      simp
    | some working_directory =>
      simp only [habs, hwd]
      simp

/-- Claim C2, witness: a relative `argv[0]` joined under the working
directory and sandbox root that exists in the sandbox yields `true`. -/
theorem prepare_workdir_exclusive_spawn_witness :
    prepare_workdir "/tmp/sandbox"
      { argv := ["bin/tool"], env := [], working_directory := some "sub",
        output_files := [], output_directories := [], timeout := none,
        description := "demo2", execution_environment_keep := KeepSandboxes.Never,
        jdk_home := none }
      (Except.ok ()) (fun p => p == "/tmp/sandbox/sub/bin/tool") = Except.ok true :=
  (prepare_workdir_exclusive_spawn "/tmp/sandbox"
      { argv := ["bin/tool"], env := [], working_directory := some "sub",
        output_files := [], output_directories := [], timeout := none,
        description := "demo2", execution_environment_keep := KeepSandboxes.Never,
        jdk_home := none }
      (fun p => p == "/tmp/sandbox/sub/bin/tool") (by decide)).1.mpr
    ⟨by decide, by decide⟩

/- ### Substring infrastructure for the replay script (C9) -/

theorem containsSub_nil (s : List Char) : containsSub [] s = true := by
  cases s <;> simp [containsSub, List.isPrefixOf]

theorem containsSub_append_right (pat t : List Char) (h : containsSub pat t = true) :
    ∀ s : List Char, containsSub pat (s ++ t) = true := by
  intro s
  induction s with
  | nil => simpa using h
  | cons c rest ih =>
    rw [List.cons_append, containsSub]
    simp [ih]

theorem containsSub_self_append (pat b : List Char) : containsSub pat (pat ++ b) = true := by
  cases pat with
  | nil => exact containsSub_nil b
  | cons c cs =>
    have hp := isPrefixOf_append_self (c :: cs) b
    rw [List.cons_append] at hp ⊢
    rw [containsSub, hp]
    rfl

theorem containsSub_append_left (pat s t : List Char) (h : containsSub pat s = true) :
    containsSub pat (s ++ t) = true := by
  induction s with
  | nil =>
    have hpat : pat = [] := by
      simpa [containsSub, List.isEmpty_iff] using h
    subst hpat
    simpa using containsSub_nil t
  | cons c rest ih =>
    rw [containsSub] at h
    rw [List.cons_append, containsSub]
    simp only [Bool.or_eq_true] at h
    rcases h with h1 | h2
    · have hpre : pat.isPrefixOf ((c :: rest) ++ t) = true :=
        List.isPrefixOf_iff_prefix.mpr
          ((List.isPrefixOf_iff_prefix.mp h1).trans (List.prefix_append (c :: rest) t))
      rw [List.cons_append] at hpre
      rw [hpre]
      rfl
    · simp [ih h2]

theorem stringToList_append (s t : String) : (s ++ t).toList = s.toList ++ t.toList :=
  String.data_append s t

theorem containsSub_string_append_right (pat : List Char) (s t : String)
    (h : containsSub pat t.toList = true) : containsSub pat (s ++ t).toList = true := by
  rw [stringToList_append]
  exact containsSub_append_right pat t.toList h s.toList

theorem containsSub_string_append_left (pat : List Char) (s t : String)
    (h : containsSub pat s.toList = true) : containsSub pat (s ++ t).toList = true := by
  rw [stringToList_append]
  exact containsSub_append_left pat s.toList t.toList h

theorem containsSub_toList_self (s : String) : containsSub s.toList s.toList = true := by
  have h := containsSub_self_append s.toList []
  rwa [List.append_nil] at h

theorem containsSub_joinSpace_of_mem (x : String) (l : List String) (hx : x ∈ l) :
    containsSub x.toList (joinSpace l).toList = true := by
  induction l with
  | nil => cases hx
  | cons y rest ih =>
    cases rest with
    | nil =>
      rcases List.mem_singleton.mp hx with rfl
      rw [show joinSpace [x] = x from rfl]
      exact containsSub_toList_self x
    | cons z zs =>
      rw [show joinSpace (y :: z :: zs) = (y ++ " ") ++ joinSpace (z :: zs) from rfl]
      rcases List.mem_cons.mp hx with rfl | hx'
      · apply containsSub_string_append_left
        rw [stringToList_append]
        exact containsSub_self_append x.toList _
      · exact containsSub_string_append_right _ _ _ (ih hx')

theorem setup_contains_env_assignment (quote : String → String)
    (env : List (String × String)) (working_directory : Option String)
    (argv : List String) (workdir_path : String)
    (k v : String) (hkv : (k, v) ∈ env) :
    containsSub (k ++ "=" ++ quote v).toList
      (setup_run_sh_script quote env working_directory argv workdir_path).toList = true := by
  apply containsSub_string_append_left
  apply containsSub_string_append_left
  apply containsSub_string_append_left
  apply containsSub_string_append_right
  exact containsSub_joinSpace_of_mem _ _ (List.mem_map_of_mem _ hkv)

theorem setup_contains_quoted_arg (quote : String → String)
    (env : List (String × String)) (working_directory : Option String)
    (argv : List String) (workdir_path : String)
    (a : String) (ha : a ∈ argv) :
    containsSub (quote a).toList
      (setup_run_sh_script quote env working_directory argv workdir_path).toList = true := by
  apply containsSub_string_append_left
  apply containsSub_string_append_right
  exact containsSub_joinSpace_of_mem _ _ (List.mem_map_of_mem _ ha)

/-- Claim C9: `setup_run_sh_script` emits exactly the replay-script
template in which the external bash-compatible `quote` is applied to every
env value, every argv element, and the resolved cwd, while each env key is
written verbatim and unquoted as `KEY=<quoted value>` — whatever
characters the key contains, the raw key (never `quote` of it) appears in
the script text. -/
theorem setup_run_sh_script_quoting (quote : String → String)
    (env : List (String × String)) (working_directory : Option String)
    (argv : List String) (workdir_path : String)
    (k v : String) (hkv : (k, v) ∈ env) (a : String) (ha : a ∈ argv) :
    setup_run_sh_script quote env working_directory argv workdir_path
        = "#!/usr/bin/env bash\n"
            ++ "# This command line should execute the same process as pants did internally.\n"
            ++ "cd " ++ quote (match working_directory with
                | some working_directory => joinPath workdir_path working_directory
                | none => workdir_path) ++ "\n"
            ++ "env -i " ++ joinSpace (env.map fun kv => kv.1 ++ "=" ++ quote kv.2)
            ++ " " ++ joinSpace (argv.map quote) ++ "\n"
  ∧ containsSub (k ++ "=" ++ quote v).toList
      (setup_run_sh_script quote env working_directory argv workdir_path).toList = true
  ∧ containsSub (quote a).toList
      (setup_run_sh_script quote env working_directory argv workdir_path).toList = true :=
  ⟨rfl,
   setup_contains_env_assignment quote env working_directory argv workdir_path k v hkv,
   setup_contains_quoted_arg quote env working_directory argv workdir_path a ha⟩

/-- Claim C9, witness: a key containing a space and a dollar sign appears
verbatim and unquoted in the script, bound to the quoted value. -/
theorem setup_run_sh_script_quoting_witness :
    containsSub ("A $B" ++ "=" ++ (fun s => "Q" ++ s ++ "Q") "v").toList
      (setup_run_sh_script (fun s => "Q" ++ s ++ "Q") [("A $B", "v")] none ["ls"] "/w").toList
      = true :=
  (setup_run_sh_script_quoting (fun s => "Q" ++ s ++ "Q") [("A $B", "v")] none ["ls"] "/w"
    "A $B" "v" (by simp) "ls" (by simp)).2.1

/- ### Output capture with empty outputs (C5) -/

theorem storeAndFinish_ok (storeFile : List UInt8 → Except String Digest)
    (a b : BytesMut) (c : Int) (dig : Digest) (r : FallibleProcessResultWithPlatform)
    (h : storeAndFinish storeFile a b c dig = Except.ok r) :
    r.exit_code = c ∧ r.output_directory = dig := by
  rw [storeAndFinish] at h
  cases h1 : storeFile a.data with
  | error m => rw [h1] at h; simp at h
  | ok d1 =>
    cases h2 : storeFile b.data with
    | error m => rw [h1, h2] at h; simp at h
    | ok d2 =>
      rw [h1, h2] at h
      cases h
      exact ⟨rfl, rfl⟩

/-- Claim C5: for every request with no declared output files and output
directories whose `run_and_capture_workdir` completes without an
infrastructure failure, the returned `output_directory_digest` is the empty
digest, and no filesystem view is constructed and no glob expansion is
performed for output capture. -/
theorem run_and_capture_empty_outputs (req : Process) (drain : DrainOutcome)
    (snapshotResult : Except String Digest) (storeFile : List UInt8 → Except String Digest)
    (hf : req.output_files = []) (hd : req.output_directories = [])
    (r : FallibleProcessResultWithPlatform) (fx : CaptureEffects)
    (h : run_and_capture_workdir req drain snapshotResult storeFile = (Except.ok r, fx)) :
    r.output_directory = Digest.empty ∧ fx.snapshotPerformed = false := by
  rw [run_and_capture_workdir, hf, hd] at h
  simp only [List.isEmpty_nil, Bool.and_self, if_true, Bool.not_true] at h
  cases hdp : (drainPhase req drain).1 with
  | ok exit_code =>
    rw [hdp] at h
    rw [Prod.mk.injEq] at h
    obtain ⟨h1, h2⟩ := h
    exact ⟨(storeAndFinish_ok _ _ _ _ _ _ h1).2, by rw [← h2]⟩
  | error e =>
    cases e with
    | Timeout t d =>
      rw [hdp] at h
      rw [Prod.mk.injEq] at h
      obtain ⟨h1, h2⟩ := h
      exact ⟨(storeAndFinish_ok _ _ _ _ _ _ h1).2, by rw [← h2]⟩
    | Retryable m =>
      rw [hdp] at h
      rw [Prod.mk.injEq] at h
      simp at h
    | Fatal m =>
      rw [hdp] at h
      rw [Prod.mk.injEq] at h
      simp at h

/-- Claim C5, witness: a run with no declared outputs and a clean exit
returns the empty output digest without performing output capture. -/
theorem run_and_capture_empty_outputs_witness :
    ({ stdout_digest := Digest.node 7, stderr_digest := Digest.node 7, exit_code := 0,
       output_directory := Digest.empty } :
        FallibleProcessResultWithPlatform).output_directory = Digest.empty
  ∧ (⟨false⟩ : CaptureEffects).snapshotPerformed = false :=
  run_and_capture_empty_outputs
    { argv := ["/bin/true"], env := [], working_directory := none,
      output_files := [], output_directories := [], timeout := none,
      description := "w5", execution_environment_keep := KeepSandboxes.Never,
      jdk_home := none }
    (DrainOutcome.completed [Except.ok (ChildOutput.Exit 0)])
    (Except.ok (Digest.node 5)) (fun _ => Except.ok (Digest.node 7))
    rfl rfl _ _ rfl

/- ### The timeout path of run_and_capture_workdir (C1) -/

theorem drainPhase_timedOut (req : Process) (t : Nat) (consumed : List ChildOutput)
    (ht : req.timeout = some t) :
    drainPhase req (DrainOutcome.timedOut consumed)
      = (Except.error (CapturedWorkdirError.Timeout t req.description),
         (foldChunks captureBuffers.1 captureBuffers.2 consumed).1,
         (foldChunks captureBuffers.1 captureBuffers.2 consumed).2) := by
  rw [drainPhase.eq_def, ht]

/-- Claim C1 (amended): for every run with a timeout set whose
child-output drain does not complete before the timer fires, provided the
output-capture step and the stdout/stderr store writes succeed,
`run_and_capture_workdir` returns a successful fallible result with exit
code `-SIGTERM`, the empty output digest, and the stderr buffer extended
with the human-readable timeout notice carrying the configured duration
and the request description; when outputs are declared, output capture is
still performed (and its snapshot discarded), not skipped. -/
theorem run_and_capture_timeout_result (req : Process) (t : Nat)
    (consumed : List ChildOutput) (snapshotResult : Except String Digest)
    (storeFile : List UInt8 → Except String Digest)
    (ht : req.timeout = some t)
    (hsnap : (req.output_files.isEmpty && req.output_directories.isEmpty) = true
      ∨ ∃ dsnap, snapshotResult = Except.ok dsnap)
    (hstore : ∀ bs, ∃ d, storeFile bs = Except.ok d) :
    ∃ r fx,
      run_and_capture_workdir req (DrainOutcome.timedOut consumed) snapshotResult storeFile
          = (Except.ok r, fx)
      ∧ r.exit_code = -SIGTERM
      ∧ r.output_directory = Digest.empty
      ∧ storeFile ((foldChunks captureBuffers.1 captureBuffers.2 consumed).2.data
            ++ utf8Bytes (timeoutSuffix t req.description)) = Except.ok r.stderr_digest
      ∧ storeFile (foldChunks captureBuffers.1 captureBuffers.2 consumed).1.data
            = Except.ok r.stdout_digest
      ∧ fx.snapshotPerformed
          = !(req.output_files.isEmpty && req.output_directories.isEmpty) := by
  obtain ⟨d1, hd1⟩ := hstore (foldChunks captureBuffers.1 captureBuffers.2 consumed).1.data
  obtain ⟨d2, hd2⟩ := hstore ((foldChunks captureBuffers.1 captureBuffers.2 consumed).2.data
    ++ utf8Bytes (timeoutSuffix t req.description))
  have hsf : storeAndFinish storeFile (foldChunks captureBuffers.1 captureBuffers.2 consumed).1
      ((foldChunks captureBuffers.1 captureBuffers.2 consumed).2.extendFromSlice
        (utf8Bytes (timeoutSuffix t req.description)))
      (-SIGTERM) Digest.empty
      = Except.ok
          { stdout_digest := d1, stderr_digest := d2, exit_code := -SIGTERM,
            output_directory := Digest.empty } := by
    rw [storeAndFinish]
    rw [show ((foldChunks captureBuffers.1 captureBuffers.2 consumed).2.extendFromSlice
        (utf8Bytes (timeoutSuffix t req.description))).data
      = (foldChunks captureBuffers.1 captureBuffers.2 consumed).2.data
          ++ utf8Bytes (timeoutSuffix t req.description) from rfl]
    rw [hd1, hd2]
  refine ⟨{ stdout_digest := d1, stderr_digest := d2, exit_code := -SIGTERM,
            output_directory := Digest.empty },
          ⟨!(req.output_files.isEmpty && req.output_directories.isEmpty)⟩,
          ?_, rfl, rfl, hd2, hd1, rfl⟩
  rw [run_and_capture_workdir]
  rw [drainPhase_timedOut req t consumed ht]
  cases hoe : (req.output_files.isEmpty && req.output_directories.isEmpty) with
  | true =>
    simp only [hoe, if_true, Bool.not_true]
    rw [hsf]
  | false =>
    rcases hsnap with hcontra | ⟨dsnap, hdsnap⟩
    · rw [hoe] at hcontra
      cases hcontra
    · rw [hdsnap]
      simp only [hoe, Bool.not_false, Bool.false_eq_true, if_false]
      rw [hsf]

/-- Claim C1, counterexample: with a timeout set and the timer winning the
race, a request that declares outputs still performs output capture, and
when that capture fails `run_and_capture_workdir` returns a hard error
instead of the successful fallible timeout result the claim promises. -/
theorem run_and_capture_timeout_counterexample :
    run_and_capture_workdir
        { argv := ["/bin/sleep"], env := [], working_directory := none,
          output_files := ["out.txt"], output_directories := [],
          timeout := some 100, description := "sleepy",
          execution_environment_keep := KeepSandboxes.Never, jdk_home := none }
        (DrainOutcome.timedOut []) (Except.error "disk failure")
        (fun _ => Except.ok (Digest.node 1))
      = (Except.error (CapturedWorkdirError.Fatal "disk failure"), ⟨true⟩) := rfl

/-- The concrete timed-out request used by the C1 witness. -/
def c1req : Process :=
  { argv := ["/bin/sleep"], env := [], working_directory := none,
    output_files := [], output_directories := [], timeout := some 100,
    description := "w1", execution_environment_keep := KeepSandboxes.Never,
    jdk_home := none }

/-- The always-succeeding store used by the C1 witness. -/
def c1store : List UInt8 → Except String Digest := fun _ => Except.ok (Digest.node 3)

/-- Claim C1, witness: a 100 ms timeout firing on a request with no
declared outputs yields the fallible `-SIGTERM` result with the empty
digest and the timeout notice appended to stderr. -/
theorem run_and_capture_timeout_result_witness :
    ∃ r fx,
      run_and_capture_workdir c1req
          (DrainOutcome.timedOut [ChildOutput.Stderr [104, 105]])
          (Except.ok Digest.empty) c1store
        = (Except.ok r, fx)
      ∧ r.exit_code = -SIGTERM
      ∧ r.output_directory = Digest.empty
      ∧ c1store ((foldChunks captureBuffers.1 captureBuffers.2
              [ChildOutput.Stderr [104, 105]]).2.data
            ++ utf8Bytes (timeoutSuffix 100 c1req.description)) = Except.ok r.stderr_digest
      ∧ c1store (foldChunks captureBuffers.1 captureBuffers.2
            [ChildOutput.Stderr [104, 105]]).1.data = Except.ok r.stdout_digest
      ∧ fx.snapshotPerformed
          = !(c1req.output_files.isEmpty && c1req.output_directories.isEmpty) :=
  run_and_capture_timeout_result c1req 100 [ChildOutput.Stderr [104, 105]]
    (Except.ok Digest.empty) c1store rfl (Or.inl rfl)
    (fun _ => ⟨Digest.node 3, rfl⟩)

/- ### The keep-sandbox decision (C4) -/

/-- Claim C4 (amended): after a run, the sandbox is marked kept and
`__run.sh` is written exactly when sandbox creation and workdir
preparation succeeded and either `keep_sandboxes = Always`, or
`= OnFailure` and the capture phase returned an `Err` or an exit code
different from 0; in addition, with `Always` the sandbox is already marked
kept at creation, so it stays kept (without `__run.sh`) when workdir
preparation fails, while with `OnFailure` such early infrastructure
failures bypass the keep block entirely; with `Never` the sandbox is never
kept, including on error paths. -/
theorem run_keep_sandbox_policy (req : Process) (createSandboxResult : Except String Unit)
    (prepareResult : Except CapturedWorkdirError Bool) (drain : DrainOutcome)
    (snapshotResult : Except String Digest) (storeFile : List UInt8 → Except String Digest) :
    ((localRun req createSandboxResult prepareResult drain snapshotResult storeFile).2.runShWritten
        = true
      ↔ createSandboxResult = Except.ok ()
        ∧ (∃ b, prepareResult = Except.ok b)
        ∧ (req.execution_environment_keep = KeepSandboxes.Always
           ∨ (req.execution_environment_keep = KeepSandboxes.OnFailure
              ∧ exitCodeOrDefault (captureToRes req drain snapshotResult storeFile) ≠ 0)))
  ∧ ((localRun req createSandboxResult prepareResult drain snapshotResult storeFile).2.keptMarked
        = true
      ↔ createSandboxResult = Except.ok ()
        ∧ (req.execution_environment_keep = KeepSandboxes.Always
           ∨ ((∃ b, prepareResult = Except.ok b)
              ∧ req.execution_environment_keep = KeepSandboxes.OnFailure
              ∧ exitCodeOrDefault (captureToRes req drain snapshotResult storeFile) ≠ 0)))
  ∧ (req.execution_environment_keep = KeepSandboxes.Never →
      (localRun req createSandboxResult prepareResult drain snapshotResult storeFile).2.keptMarked
          = false
      ∧ (localRun req createSandboxResult prepareResult drain snapshotResult
          storeFile).2.runShWritten = false)
  ∧ (∀ b, createSandboxResult = Except.ok () → prepareResult = Except.ok b →
      (localRun req createSandboxResult prepareResult drain snapshotResult storeFile).1
        = captureToRes req drain snapshotResult storeFile) := by
  cases createSandboxResult with
  | error e =>
    refine ⟨by simp [localRun], by simp [localRun], fun hk => by simp [localRun], ?_⟩
    intro b hc
    exact absurd hc (by simp)
  | ok u =>
    cases u
    cases prepareResult with
    | error e =>
      refine ⟨by simp [localRun], by simp [localRun], fun hk => by simp [localRun, hk], ?_⟩
      intro b _ hp
      exact absurd hp (by simp)
    | ok b0 =>
      by_cases hcond : req.execution_environment_keep = KeepSandboxes.Always
          ∨ (req.execution_environment_keep = KeepSandboxes.OnFailure
             ∧ exitCodeOrDefault (captureToRes req drain snapshotResult storeFile) ≠ 0)
      · have hrun : localRun req (Except.ok ()) (Except.ok b0) drain snapshotResult storeFile
            = (captureToRes req drain snapshotResult storeFile, ⟨true, true, true⟩) := by
          simp only [localRun]
          rw [if_pos hcond]
        rw [hrun]
        refine ⟨?_, ?_, ?_, fun b _ _ => rfl⟩
        · exact ⟨fun _ => ⟨rfl, ⟨b0, rfl⟩, hcond⟩, fun _ => rfl⟩
        · refine ⟨fun _ => ⟨rfl, ?_⟩, fun _ => rfl⟩
          rcases hcond with h | h
          · exact Or.inl h
          · exact Or.inr ⟨⟨b0, rfl⟩, h⟩
        · intro hk
          exfalso
          rcases hcond with h | ⟨h, -⟩ <;> rw [hk] at h <;> cases h
      · have hrun : localRun req (Except.ok ()) (Except.ok b0) drain snapshotResult storeFile
            = (captureToRes req drain snapshotResult storeFile,
               ⟨true, req.execution_environment_keep = KeepSandboxes.Always, false⟩) := by
          simp only [localRun]
          rw [if_neg hcond]
        rw [hrun]
        refine ⟨?_, ?_, ?_, fun b _ _ => rfl⟩
        · constructor
          · intro h
            simp at h
          · rintro ⟨-, -, hor⟩
            exact absurd hor hcond
        · constructor
          · intro h
            exact ⟨rfl, Or.inl (of_decide_eq_true h)⟩
          · rintro ⟨-, hor⟩
            rcases hor with h | ⟨-, h2, h3⟩
            · exact decide_eq_true h
            · exact absurd (Or.inr ⟨h2, h3⟩) hcond
        · intro hk
          rw [hk]
          exact ⟨rfl, rfl⟩

/-- The concrete OnFailure request used by the C4 counterexample. -/
def c4req : Process :=
  { argv := ["/bin/x"], env := [], working_directory := none,
    output_files := [], output_directories := [], timeout := none,
    description := "c4", execution_environment_keep := KeepSandboxes.OnFailure,
    jdk_home := none }

/-- Claim C4, counterexample: with `keep_sandboxes = OnFailure`, a workdir
preparation failure makes the run return an infrastructure error (an `Err`
result), yet the sandbox is not marked kept and `__run.sh` is not
written. -/
theorem run_keep_sandbox_counterexample :
    (localRun c4req (Except.ok ()) (Except.error (CapturedWorkdirError.Fatal "boom"))
        (DrainOutcome.completed []) (Except.ok Digest.empty)
        (fun _ => Except.ok Digest.empty)).1
      = Except.error (ProcessError.Unclassified "boom")
  ∧ (localRun c4req (Except.ok ()) (Except.error (CapturedWorkdirError.Fatal "boom"))
        (DrainOutcome.completed []) (Except.ok Digest.empty)
        (fun _ => Except.ok Digest.empty)).2
      = ⟨true, false, false⟩ :=
  ⟨rfl, rfl⟩

/-- The concrete Never request used by the C4 witness. -/
def c4nreq : Process :=
  { argv := ["/bin/x"], env := [], working_directory := none,
    output_files := [], output_directories := [], timeout := none,
    description := "c4n", execution_environment_keep := KeepSandboxes.Never,
    jdk_home := none }

/-- Claim C4, witness: with `keep_sandboxes = Never` the sandbox is not
kept and `__run.sh` is not written. -/
theorem run_keep_sandbox_policy_witness :
    (localRun c4nreq (Except.ok ()) (Except.ok false) (DrainOutcome.completed [])
        (Except.ok Digest.empty) (fun _ => Except.ok Digest.empty)).2.keptMarked = false
  ∧ (localRun c4nreq (Except.ok ()) (Except.ok false) (DrainOutcome.completed [])
        (Except.ok Digest.empty) (fun _ => Except.ok Digest.empty)).2.runShWritten = false :=
  (run_keep_sandbox_policy c4nreq (Except.ok ()) (Except.ok false) (DrainOutcome.completed [])
      (Except.ok Digest.empty) (fun _ => Except.ok Digest.empty)).2.2.1 rfl

end LocalExec
